import Mathlib

/-!
Verification of the match-view derivation core of `page-match.js`
(formation resolver, rating engine, event timeline builder, MVP resolver).

JavaScript values reaching the numeric fields of a player-statistic row are
modelled by `JVal`: `vUndef` is an absent property / `undefined`, `vNull` is
`null`, `vNum q` abstracts every JS value whose `Number(-)` image is the
finite number `q`, and `vNaN` abstracts every value whose `Number(-)` image
is not finite.  All code paths modelled here observe such a field only
through a nullish test, through `Number(-)`, or through the pattern
`Number(x || 0) > 0`, for which this abstraction is exact.
String-valued fields (names, positions, steam ids) are modelled as `String`,
with `""` standing for an absent field.  All arithmetic is exact (`ℚ`),
matching the spec's one-decimal contract rather than IEEE rounding noise.
-/

namespace Hub

inductive JVal where
  | vUndef : JVal
  | vNull : JVal
  | vNum : ℚ → JVal
  | vNaN : JVal
deriving DecidableEq

open JVal

/-- JS nullish test (`x ?? y` skips exactly `undefined` and `null`). -/
def isNullish : JVal → Bool
  | vUndef => true
  | vNull => true
  | _ => false

/-- `Number(v)` when the result is a finite number; `none` for NaN/±∞.
`Number(undefined) = NaN`, `Number(null) = 0`. -/
def toNumber : JVal → Option ℚ
  | vUndef => none
  | vNull => some 0
  | vNum q => some q
  | vNaN => none

/-- JS truthiness of the abstracted values (numbers: nonzero). -/
def truthy : JVal → Bool
  | vNum q => q ≠ 0
  | _ => false

/-- JS `a || b` on abstracted values. -/
def jsOr (a b : JVal) : JVal := if truthy a then a else b

/-- The numeric-ish fields of a statistic row read by the derivation core,
with the exact source spellings (snake_case and camelCase synonyms). -/
inductive NumField where
  | match_rating | matchRating | matched_rating | _rating | mvp_score | score
  | _tieBreak
  | goals | assists
  | keeper_saves | keeperSaves
  | interceptions
  | tackles | sliding_tackles_completed | slidingTacklesCompleted
  | chances_created | chancesCreated
  | key_passes | keyPasses
  | shots_on_goal | shotsOnGoal
  | passes_completed | passesCompleted
  | red_cards | redCards
  | yellow_cards | yellowCards
  | own_goals | ownGoals
  | goals_conceded | goalsConceded
deriving DecidableEq

/-- A raw minute value inside an `event_timestamps` map: an array, a scalar,
or nothing at that key. -/
inductive MinsVal where
  | mAbsent : MinsVal
  | mScalar : JVal → MinsVal
  | mArr : List JVal → MinsVal
deriving DecidableEq

/-- The `event_timestamps` / `eventTimestamps` field.  `evUndef` is an absent
property, `evNull` is `null`, `evJunk` abstracts every other present value
that `getEventMap` degrades to `{}` (undecodable strings, numbers, arrays),
and `evMap m` is an object (or a string decoding to an object). -/
inductive EvtsVal where
  | evUndef : EvtsVal
  | evNull : EvtsVal
  | evJunk : EvtsVal
  | evMap : List (String × MinsVal) → EvtsVal
deriving DecidableEq

/-- One player-statistic row (`PlayerStatRow`). -/
structure Row where
  num : NumField → JVal
  player_name : String
  name : String
  position : String
  steam_id : String
  event_timestamps : EvtsVal
  eventTimestamps : EvtsVal

/-- `pickNum(player, keys)`: first key whose value is neither `undefined`
nor `null`, coerced by `toNum` (non-finite `Number` image becomes 0). -/
def pickNum (r : Row) (keys : List NumField) : ℚ :=
  match keys.find? (fun k => !isNullish (r.num k)) with
  | some k => (toNumber (r.num k)).getD 0
  | none => 0

/-- The field chain `match_rating ?? matchRating ?? matched_rating ??
_rating ?? mvp_score ?? score` of `playerRating10`. -/
def ratingChainFields : List NumField :=
  [NumField.match_rating, NumField.matchRating, NumField.matched_rating,
   NumField._rating, NumField.mvp_score, NumField.score]

/-- Left-to-right `??` coalescing: first non-nullish value, else the last
value of the chain (itself nullish). -/
def coalesce : List JVal → JVal
  | [] => JVal.vUndef
  | [v] => v
  | v :: w :: rest => if isNullish v then coalesce (w :: rest) else v

def ratingChain (r : Row) : JVal :=
  coalesce (ratingChainFields.map r.num)

/-- `Math.round(Math.max(3, Math.min(10, q)) * 10) / 10`: clamp to `[3,10]`
then round to one decimal (JS `Math.round` is `⌊x + 1/2⌋`, as is Mathlib's
`round` on `ℚ`). -/
def clampRound (q : ℚ) : ℚ :=
  (round (max 3 (min 10 q) * 10) : ℤ) / 10

def goalsOf (r : Row) : ℚ := pickNum r [NumField.goals]
def assistsOf (r : Row) : ℚ := pickNum r [NumField.assists]
def savesOf (r : Row) : ℚ := pickNum r [NumField.keeper_saves, NumField.keeperSaves]
def interceptionsOf (r : Row) : ℚ := pickNum r [NumField.interceptions]
def tacklesOf (r : Row) : ℚ :=
  pickNum r [NumField.tackles, NumField.sliding_tackles_completed, NumField.slidingTacklesCompleted]
def chancesOf (r : Row) : ℚ := pickNum r [NumField.chances_created, NumField.chancesCreated]
def keyPassesOf (r : Row) : ℚ := pickNum r [NumField.key_passes, NumField.keyPasses]
def shotsOnGoalOf (r : Row) : ℚ := pickNum r [NumField.shots_on_goal, NumField.shotsOnGoal]
def passesCompletedOf (r : Row) : ℚ := pickNum r [NumField.passes_completed, NumField.passesCompleted]
def redsOf (r : Row) : ℚ := pickNum r [NumField.red_cards, NumField.redCards]
def yellowsOf (r : Row) : ℚ := pickNum r [NumField.yellow_cards, NumField.yellowCards]
def ownGoalsOf (r : Row) : ℚ := pickNum r [NumField.own_goals, NumField.ownGoals]
def goalsConcededOf (r : Row) : ℚ := pickNum r [NumField.goals_conceded, NumField.goalsConceded]

/-- The fallback linear scoring formula of `playerRating10`. -/
def rawScore (r : Row) : ℚ :=
  5.5 +
  goalsOf r * 1.1 +
  assistsOf r * 0.8 +
  savesOf r * 0.24 +
  interceptionsOf r * 0.18 +
  tacklesOf r * 0.14 +
  chancesOf r * 0.22 +
  keyPassesOf r * 0.18 +
  shotsOnGoalOf r * 0.11 +
  passesCompletedOf r * 0.004 -
  redsOf r * 1.9 -
  yellowsOf r * 0.35 -
  ownGoalsOf r * 1.2 -
  goalsConcededOf r * 0.05

/-- `playerRating10(player)`. -/
def playerRating10 (r : Row) : ℚ :=
  match toNumber (ratingChain r) with
  | some provided => clampRound provided
  | none => clampRound (rawScore r)

/-- A row with every numeric field absent and empty identity strings. -/
def mkRow (f : NumField → JVal) : Row :=
  { num := f, player_name := "", name := "", position := "", steam_id := "",
    event_timestamps := EvtsVal.evUndef, eventTimestamps := EvtsVal.evUndef }

lemma round_mono_q {x y : ℚ} (h : x ≤ y) : round x ≤ round y := by
  rw [round_eq, round_eq]
  exact Int.floor_le_floor (by linarith)

lemma clampRound_spec (q : ℚ) :
    3 ≤ clampRound q ∧ clampRound q ≤ 10 ∧ ∃ k : ℤ, clampRound q = (k : ℚ) / 10 := by
  have h3 : (3 : ℚ) ≤ max 3 (min 10 q) := le_max_left _ _
  have h10 : max 3 (min 10 q) ≤ 10 := max_le (by norm_num) (min_le_left _ _)
  have hlo : round ((30 : ℚ)) ≤ round (max 3 (min 10 q) * 10) := round_mono_q (by linarith)
  have hhi : round (max 3 (min 10 q) * 10) ≤ round ((100 : ℚ)) := round_mono_q (by linarith)
  have e30 : round ((30 : ℚ)) = 30 := by norm_num [round_eq]
  have e100 : round ((100 : ℚ)) = 100 := by norm_num [round_eq]
  rw [e30] at hlo
  rw [e100] at hhi
  refine ⟨?_, ?_, ⟨round (max 3 (min 10 q) * 10), rfl⟩⟩
  · unfold clampRound
    rw [le_div_iff₀ (by norm_num : (0:ℚ) < 10)]
    calc (3 : ℚ) * 10 = ((30 : ℤ) : ℚ) := by norm_num
    _ ≤ _ := by exact_mod_cast hlo
  · unfold clampRound
    rw [div_le_iff₀ (by norm_num : (0:ℚ) < 10)]
    calc ((round (max 3 (min 10 q) * 10) : ℤ) : ℚ) ≤ ((100 : ℤ) : ℚ) := by exact_mod_cast hhi
    _ = 10 * 10 := by norm_num

lemma clampRound_mono {x y : ℚ} (h : x ≤ y) : clampRound x ≤ clampRound y := by
  unfold clampRound
  have hm : max 3 (min 10 x) * 10 ≤ max 3 (min 10 y) * 10 := by
    have : max 3 (min 10 x) ≤ max 3 (min 10 y) :=
      max_le_max le_rfl (min_le_min le_rfl h)
    linarith
  have := round_mono_q hm
  have hc : ((round (max 3 (min 10 x) * 10) : ℤ) : ℚ) ≤ ((round (max 3 (min 10 y) * 10) : ℤ) : ℚ) := by
    exact_mod_cast this
  exact div_le_div_of_nonneg_right hc (by norm_num) |>.trans_eq rfl

lemma playerRating10_cases (r : Row) :
    (∃ q, toNumber (ratingChain r) = some q ∧ playerRating10 r = clampRound q) ∨
    (toNumber (ratingChain r) = none ∧ playerRating10 r = clampRound (rawScore r)) := by
  unfold playerRating10
  cases h : toNumber (ratingChain r) with
  | some q => exact Or.inl ⟨q, rfl, rfl⟩
  | none => exact Or.inr ⟨rfl, rfl⟩

/-- C1: for every statistic row — whether the rating comes from the explicit
rating-field chain or from the counter formula — `playerRating10` lies in
`[3, 10]` and is an integer multiple of `0.1`. -/
theorem c1_rating_bounded_one_decimal (r : Row) :
    3 ≤ playerRating10 r ∧ playerRating10 r ≤ 10 ∧
      ∃ k : ℤ, playerRating10 r = (k : ℚ) / 10 := by
  rcases playerRating10_cases r with ⟨q, _, hq⟩ | ⟨_, hq⟩ <;> rw [hq] <;>
    exact clampRound_spec _

/-- C1 witness: a concrete row with three goals and no explicit rating. -/
theorem c1_rating_bounded_one_decimal_witness :
    3 ≤ playerRating10 (mkRow (fun f => if f = NumField.goals then JVal.vNum 3 else JVal.vUndef)) ∧
      playerRating10 (mkRow (fun f => if f = NumField.goals then JVal.vNum 3 else JVal.vUndef)) ≤ 10 ∧
      ∃ k : ℤ,
        playerRating10 (mkRow (fun f => if f = NumField.goals then JVal.vNum 3 else JVal.vUndef)) = (k : ℚ) / 10 :=
  c1_rating_bounded_one_decimal _

/-- C6: with no finite explicit rating on either row, `playerRating10` is
monotone: not smaller positive counters and not larger negative counters
give a not smaller rating, and the result stays clamped in `[3, 10]`. -/
theorem c6_fallback_monotone (p p' : Row)
    (hp : toNumber (ratingChain p) = none)
    (hp' : toNumber (ratingChain p') = none)
    (hg : goalsOf p ≤ goalsOf p') (ha : assistsOf p ≤ assistsOf p')
    (hs : savesOf p ≤ savesOf p') (hi : interceptionsOf p ≤ interceptionsOf p')
    (ht : tacklesOf p ≤ tacklesOf p') (hc : chancesOf p ≤ chancesOf p')
    (hk : keyPassesOf p ≤ keyPassesOf p') (hsh : shotsOnGoalOf p ≤ shotsOnGoalOf p')
    (hpc : passesCompletedOf p ≤ passesCompletedOf p')
    (hr : redsOf p' ≤ redsOf p) (hy : yellowsOf p' ≤ yellowsOf p)
    (hog : ownGoalsOf p' ≤ ownGoalsOf p) (hgc : goalsConcededOf p' ≤ goalsConcededOf p) :
    playerRating10 p ≤ playerRating10 p' ∧
      3 ≤ playerRating10 p ∧ playerRating10 p' ≤ 10 := by
  have hraw : rawScore p ≤ rawScore p' := by
    simp only [rawScore]
    linarith
  have hpe : playerRating10 p = clampRound (rawScore p) := by
    unfold playerRating10
    rw [hp]
  have hpe' : playerRating10 p' = clampRound (rawScore p') := by
    unfold playerRating10
    rw [hp']
  rw [hpe, hpe']
  exact ⟨clampRound_mono hraw, (clampRound_spec _).1, (clampRound_spec _).2.1⟩

/-- C6 witness: the all-absent row against a row with one goal. -/
theorem c6_fallback_monotone_witness :
    playerRating10 (mkRow (fun _ => JVal.vUndef)) ≤
      playerRating10 (mkRow (fun f => if f = NumField.goals then JVal.vNum 1 else JVal.vUndef)) :=
  (c6_fallback_monotone _ _ (by decide) (by decide) (by decide) (by decide)
    (by decide) (by decide) (by decide) (by decide) (by decide) (by decide)
    (by decide) (by decide) (by decide) (by decide) (by decide)).1

lemma coalesce_of_find? :
    ∀ (l : List JVal) (v : JVal), l.find? (fun w => !isNullish w) = some v → coalesce l = v := by
  intro l
  induction l with
  | nil => intro v h; simp [List.find?] at h
  | cons a rest ih =>
    intro v h
    by_cases ha : isNullish a
    · have hfind : rest.find? (fun w => !isNullish w) = some v := by
        simpa [List.find?, ha] using h
      cases rest with
      | nil => simp [List.find?] at hfind
      | cons b bs =>
        have := ih v hfind
        simpa [coalesce, ha] using this
    · have hv : a = v := by
        simpa [List.find?, ha] using h
      cases rest with
      | nil => simpa [coalesce] using hv
      | cons b bs => simpa [coalesce, ha] using hv

/-- C9: the first non-nullish value in the chain `match_rating, matchRating,
matched_rating, _rating, mvp_score, score` is the explicit rating: if it
converts to a finite number it is clamped and rounded with all counters
ignored (explicit `0` gives `3`), and if it does not convert the counter
formula is used, whatever the later fields hold. -/
theorem c9_explicit_rating_chain (r : Row) (v : JVal)
    (h : (ratingChainFields.map r.num).find? (fun w => !isNullish w) = some v) :
    (∀ q : ℚ, toNumber v = some q → playerRating10 r = clampRound q) ∧
    (toNumber v = none → playerRating10 r = clampRound (rawScore r)) ∧
    (v = JVal.vNum 0 → playerRating10 r = 3) := by
  have hchain : ratingChain r = v := coalesce_of_find? _ v h
  refine ⟨?_, ?_, ?_⟩
  · intro q hq
    unfold playerRating10
    rw [hchain, hq]
  · intro hq
    unfold playerRating10
    rw [hchain, hq]
  · intro hv
    unfold playerRating10
    rw [hchain, hv]
    show clampRound 0 = 3
    norm_num [clampRound, round_eq]

/-- C9 witness: explicit rating `0` beats a 3-goal counter line and yields
`3.0`; a non-numeric first chain value falls back to the counter formula
even though `score` holds `9`. -/
theorem c9_explicit_rating_chain_witness :
    playerRating10 (mkRow (fun f =>
        if f = NumField.match_rating then JVal.vNum 0
        else if f = NumField.goals then JVal.vNum 3 else JVal.vUndef)) = 3 ∧
    playerRating10 (mkRow (fun f =>
        if f = NumField.match_rating then JVal.vNaN
        else if f = NumField.score then JVal.vNum 9 else JVal.vUndef)) =
      clampRound (rawScore (mkRow (fun f =>
        if f = NumField.match_rating then JVal.vNaN
        else if f = NumField.score then JVal.vNum 9 else JVal.vUndef))) :=
  ⟨(c9_explicit_rating_chain _ (JVal.vNum 0) (by decide)).2.2 rfl,
   (c9_explicit_rating_chain _ JVal.vNaN (by decide)).2.1 rfl⟩

/-! ## Formation resolver -/

/-- A canonical lineup entry produced by `parseLineupEntries`. -/
structure LineupEntry where
  pos : String
  name : String
  steamId : String
  started : Bool
deriving DecidableEq

instance : Inhabited LineupEntry := ⟨⟨"", "", "", true⟩⟩

/-- A formation-template slot. -/
structure Slot where
  pos : String
  x : ℕ
  y : ℕ
deriving DecidableEq

inductive Formation where
  | five | six | eight
deriving DecidableEq

/-- `FORMATIONS.eight`. -/
def formationEight : List Slot :=
  [⟨"LW", 16, 18⟩, ⟨"CF", 50, 18⟩, ⟨"RW", 84, 18⟩, ⟨"CM", 50, 39⟩,
   ⟨"LB", 16, 62⟩, ⟨"CB", 50, 62⟩, ⟨"RB", 84, 62⟩, ⟨"GK", 50, 86⟩]

/-- `FORMATIONS.six`. -/
def formationSix : List Slot :=
  [⟨"LW", 22, 22⟩, ⟨"RW", 78, 22⟩, ⟨"CM", 50, 42⟩,
   ⟨"LB", 22, 64⟩, ⟨"RB", 78, 64⟩, ⟨"GK", 50, 86⟩]

/-- `FORMATIONS.five`. -/
def formationFive : List Slot :=
  [⟨"CF", 50, 21⟩, ⟨"LM", 22, 42⟩, ⟨"RM", 78, 42⟩, ⟨"CB", 50, 64⟩, ⟨"GK", 50, 86⟩]

def formationSlots : Formation → List Slot
  | Formation.five => formationFive
  | Formation.six => formationSix
  | Formation.eight => formationEight

/-- ASCII case mapping (JS `toLowerCase`/`toUpperCase` restricted to the
ASCII range; non-ASCII characters are left unchanged, which agrees with the
source on every ASCII input). -/
def asciiLower (c : Char) : Char :=
  if 'A' ≤ c ∧ c ≤ 'Z' then Char.ofNat (c.toNat + 32) else c

def asciiUpper (c : Char) : Char :=
  if 'a' ≤ c ∧ c ≤ 'z' then Char.ofNat (c.toNat - 32) else c

def strLower (s : String) : String := ⟨s.data.map asciiLower⟩

def strUpper (s : String) : String := ⟨s.data.map asciiUpper⟩

/-- The whitespace characters stripped by JS `String.prototype.trim`
(ASCII portion). -/
def isJsSpace (c : Char) : Bool :=
  c = ' ' || c = '\t' || c = '\n' || c = '\r' || c = '\x0b' || c = '\x0c'

def strTrim (s : String) : String :=
  ⟨((s.data.dropWhile isJsSpace).reverse.dropWhile isJsSpace).reverse⟩

/-- `normalizeLineupPos`: uppercase then trim. -/
def normalizeLineupPos (s : String) : String := strTrim (strUpper s)

def listIsPrefixOf : List Char → List Char → Bool
  | [], _ => true
  | _ :: _, [] => false
  | a :: as, b :: bs => a == b && listIsPrefixOf as bs

def listHasInfix (pat : List Char) : List Char → Bool
  | [] => listIsPrefixOf pat []
  | c :: rest => listIsPrefixOf pat (c :: rest) || listHasInfix pat rest

/-- JS `String.prototype.includes` on the modelled strings. -/
def strContainsSub (s pat : String) : Bool := listHasInfix pat.data s.data

/-- `formationFromGameType`: a `None` hint models `undefined`/`null`. -/
def formationFromGameType (gameType : Option String) : Option Formation :=
  let raw := strLower (gameType.getD "")
  if raw = "" then none
  else if strContainsSub raw "8v8" then some Formation.eight
  else if strContainsSub raw "6v6" then some Formation.six
  else if strContainsSub raw "5v5" then some Formation.five
  else none

/-- `detectFormation(entries, gameType)`: `Set.has` on the started entries'
normalized position codes is list membership. -/
def detectFormation (entries : List LineupEntry) (gameType : Option String) : Formation :=
  match formationFromGameType gameType with
  | some f => f
  | none =>
    let started := entries.filter (fun e => e.started)
    let positions := started.map (fun e => normalizeLineupPos e.pos)
    if positions.contains "CF" && positions.contains "LM" && positions.contains "RM" &&
        positions.contains "CB" && positions.contains "GK" then Formation.five
    else if positions.contains "LW" && positions.contains "RW" && positions.contains "CM" &&
        positions.contains "LB" && positions.contains "RB" && positions.contains "GK" &&
        !positions.contains "CF" then Formation.six
    else if started.length ≤ 5 then Formation.five
    else if started.length ≤ 6 then Formation.six
    else Formation.eight

/-- Claim C4's selection rule, following the spec's words: the middle
priority requires the started position codes to *exactly match* a
template's position-code signature (as a set). -/
def specDetectFormation (entries : List LineupEntry) (gameType : Option String) : Formation :=
  match formationFromGameType gameType with
  | some f => f
  | none =>
    let started := entries.filter (fun e => e.started)
    let positions := started.map (fun e => normalizeLineupPos e.pos)
    if positions.toFinset = ((formationFive.map Slot.pos).toFinset) then Formation.five
    else if positions.toFinset = ((formationSix.map Slot.pos).toFinset) then Formation.six
    else if started.length ≤ 5 then Formation.five
    else if started.length ≤ 6 then Formation.six
    else Formation.eight

/-- The amended C4 selection rule: the middle priority only requires the
started position codes to *include every code* of the template's signature
(and, for the medium template, to exclude `CF`). -/
def amendedDetectFormation (entries : List LineupEntry) (gameType : Option String) : Formation :=
  match formationFromGameType gameType with
  | some f => f
  | none =>
    let started := entries.filter (fun e => e.started)
    let positions := started.map (fun e => normalizeLineupPos e.pos)
    if (formationFive.map Slot.pos).all (fun c => positions.contains c) then Formation.five
    else if ((formationSix.map Slot.pos).all (fun c => positions.contains c) &&
        !positions.contains "CF") then Formation.six
    else if started.length ≤ 5 then Formation.five
    else if started.length ≤ 6 then Formation.six
    else Formation.eight

/-- Six starters covering the whole small-template signature plus `LW`. -/
def entriesSixMix : List LineupEntry :=
  [⟨"CF", "a", "", true⟩, ⟨"LM", "b", "", true⟩, ⟨"RM", "c", "", true⟩,
   ⟨"CB", "d", "", true⟩, ⟨"GK", "e", "", true⟩, ⟨"LW", "f", "", true⟩]

/-- C4 counterexample: six starters whose position codes are
`CF LM RM CB GK LW` do not *exactly match* any signature, so the claimed
rule falls back on the count (6 → medium), but the code tests mere
containment of the small signature and selects the small template. -/
theorem c4_counterexample_containment_not_exact :
    detectFormation entriesSixMix none = Formation.five ∧
    specDetectFormation entriesSixMix none = Formation.six ∧
    detectFormation entriesSixMix none ≠ specDetectFormation entriesSixMix none := by
  refine ⟨by decide, by decide, by decide⟩

/-- C4 amended: template selection follows the hint first, then signature
*containment* (all small-signature codes present → small; else all
medium-signature codes present and `CF` absent → medium), then the count
of started entries. -/
theorem c4_formation_selection_amended (entries : List LineupEntry) (gameType : Option String) :
    detectFormation entries gameType = amendedDetectFormation entries gameType := by
  unfold detectFormation amendedDetectFormation
  cases formationFromGameType gameType with
  | some f => rfl
  | none =>
    simp only [formationFive, formationSix, List.map, List.all_cons, List.all_nil,
      Bool.and_true]
    cases hcf : (entries.filter (fun e => e.started)).map (fun e => normalizeLineupPos e.pos)
        |>.contains "CF" <;>
    cases hlm : (entries.filter (fun e => e.started)).map (fun e => normalizeLineupPos e.pos)
        |>.contains "LM" <;>
    cases hrm : (entries.filter (fun e => e.started)).map (fun e => normalizeLineupPos e.pos)
        |>.contains "RM" <;>
    cases hcb : (entries.filter (fun e => e.started)).map (fun e => normalizeLineupPos e.pos)
        |>.contains "CB" <;>
    cases hgk : (entries.filter (fun e => e.started)).map (fun e => normalizeLineupPos e.pos)
        |>.contains "GK" <;>
    cases hlw : (entries.filter (fun e => e.started)).map (fun e => normalizeLineupPos e.pos)
        |>.contains "LW" <;>
    cases hrw : (entries.filter (fun e => e.started)).map (fun e => normalizeLineupPos e.pos)
        |>.contains "RW" <;>
    cases hcm : (entries.filter (fun e => e.started)).map (fun e => normalizeLineupPos e.pos)
        |>.contains "CM" <;>
    cases hlb : (entries.filter (fun e => e.started)).map (fun e => normalizeLineupPos e.pos)
        |>.contains "LB" <;>
    cases hrb : (entries.filter (fun e => e.started)).map (fun e => normalizeLineupPos e.pos)
        |>.contains "RB" <;>
    simp [hcf, hlm, hrm, hcb, hgk, hlw, hrw, hcm, hlb, hrb]

/-! ## Two-pass greedy slot assignment (`lineupCardHtml`) -/

/-- `started.findIndex((entry, idx) => !usedIndex.has(idx) && p(entry))`. -/
def findFreeIndex (started : List LineupEntry) (used : List ℕ) (p : LineupEntry → Bool) : Option ℕ :=
  (List.range started.length).find? (fun i => !used.contains i && p (started.getD i default))

/-- Pass 1: strict position mapping, slot by slot in template order. -/
def pass1 (started : List LineupEntry) : List Slot → List ℕ → List (Option ℕ) × List ℕ
  | [], used => ([], used)
  | s :: rest, used =>
    match findFreeIndex started used (fun e => e.pos == normalizeLineupPos s.pos) with
    | some i =>
      let r := pass1 started rest (i :: used)
      (some i :: r.1, r.2)
    | none =>
      let r := pass1 started rest used
      (none :: r.1, r.2)

/-- Pass 2: fill every still-empty slot with the first unused starter. -/
def pass2 (started : List LineupEntry) : List (Option ℕ) → List ℕ → List (Option ℕ) × List ℕ
  | [], used => ([], used)
  | some i :: rest, used =>
    let r := pass2 started rest used
    (some i :: r.1, r.2)
  | none :: rest, used =>
    match findFreeIndex started used (fun _ => true) with
    | some i =>
      let r := pass2 started rest (i :: used)
      (some i :: r.1, r.2)
    | none =>
      let r := pass2 started rest used
      (none :: r.1, r.2)

structure AssignResult where
  started : List LineupEntry
  slotPlayers : List (Option ℕ)
  used : List ℕ
  overflowIdx : List ℕ

/-- The slot-assignment core of `lineupCardHtml`: filter the started
entries, normalize their positions, run the two passes against the detected
formation's slots, and report the unused starters (by index, as the mutable
`usedIndex` set does) as overflow. -/
def lineupAssign (entries : List LineupEntry) (gameType : Option String) : AssignResult :=
  let slots := formationSlots (detectFormation entries gameType)
  let started := (entries.filter (fun e => e.started)).map
    (fun e => { e with pos := normalizeLineupPos e.pos })
  let r1 := pass1 started slots []
  let r2 := pass2 started r1.1 r1.2
  { started := started, slotPlayers := r2.1, used := r2.2,
    overflowIdx := (List.range started.length).filter (fun i => !r2.2.contains i) }

lemma findFreeIndex_spec {started : List LineupEntry} {used : List ℕ}
    {p : LineupEntry → Bool} {i : ℕ} (h : findFreeIndex started used p = some i) :
    i ∉ used ∧ i < started.length := by
  unfold findFreeIndex at h
  have hmem := List.mem_of_find?_eq_some h
  have hp := List.find?_some h
  simp only [Bool.and_eq_true, Bool.not_eq_true'] at hp
  refine ⟨?_, List.mem_range.mp hmem⟩
  intro hin
  have hc : used.contains i = true := List.elem_eq_true_of_mem hin
  rw [hc] at hp
  exact Bool.noConfusion hp.1

lemma pass1_perm (started : List LineupEntry) :
    ∀ (slots : List Slot) (used : List ℕ),
      (pass1 started slots used).2.Perm (((pass1 started slots used).1.filterMap id) ++ used) := by
  intro slots
  induction slots with
  | nil => intro used; simp [pass1]
  | cons s rest ih =>
    intro used
    unfold pass1
    cases hf : findFreeIndex started used (fun e => e.pos == normalizeLineupPos s.pos) with
    | some i =>
      simp only [List.filterMap_cons, id_eq]
      exact (ih (i :: used)).trans List.perm_middle
    | none =>
      simp only [List.filterMap_cons, id_eq]
      exact ih used

lemma pass1_nodup (started : List LineupEntry) :
    ∀ (slots : List Slot) (used : List ℕ), used.Nodup → (pass1 started slots used).2.Nodup := by
  intro slots
  induction slots with
  | nil => intro used h; simpa [pass1] using h
  | cons s rest ih =>
    intro used h
    unfold pass1
    cases hf : findFreeIndex started used (fun e => e.pos == normalizeLineupPos s.pos) with
    | some i => exact ih (i :: used) (List.nodup_cons.mpr ⟨(findFreeIndex_spec hf).1, h⟩)
    | none => exact ih used h

lemma pass1_lt (started : List LineupEntry) :
    ∀ (slots : List Slot) (used : List ℕ), (∀ j ∈ used, j < started.length) →
      ∀ j ∈ (pass1 started slots used).2, j < started.length := by
  intro slots
  induction slots with
  | nil => intro used h; simpa [pass1] using h
  | cons s rest ih =>
    intro used h
    unfold pass1
    cases hf : findFreeIndex started used (fun e => e.pos == normalizeLineupPos s.pos) with
    | some i =>
      refine ih (i :: used) ?_
      intro j hj
      rcases List.mem_cons.mp hj with rfl | hj
      · exact (findFreeIndex_spec hf).2
      · exact h j hj
    | none => exact ih used h

lemma pass2_perm (started : List LineupEntry) :
    ∀ (sp : List (Option ℕ)) (used : List ℕ),
      ((pass2 started sp used).2 ++ sp.filterMap id).Perm
        (((pass2 started sp used).1.filterMap id) ++ used) := by
  intro sp
  induction sp with
  | nil => intro used; simp [pass2]
  | cons o rest ih =>
    intro used
    cases o with
    | some i =>
      unfold pass2
      simp only [List.filterMap_cons, id_eq]
      exact List.perm_middle.trans ((ih used).cons i)
    | none =>
      unfold pass2
      cases hf : findFreeIndex started used (fun _ => true) with
      | some i =>
        simp only [List.filterMap_cons, id_eq]
        exact (ih (i :: used)).trans List.perm_middle
      | none =>
        simp only [List.filterMap_cons, id_eq]
        exact ih used

lemma pass2_nodup (started : List LineupEntry) :
    ∀ (sp : List (Option ℕ)) (used : List ℕ), used.Nodup → (pass2 started sp used).2.Nodup := by
  intro sp
  induction sp with
  | nil => intro used h; simpa [pass2] using h
  | cons o rest ih =>
    intro used h
    cases o with
    | some i => exact ih used h
    | none =>
      unfold pass2
      cases hf : findFreeIndex started used (fun _ => true) with
      | some i => exact ih (i :: used) (List.nodup_cons.mpr ⟨(findFreeIndex_spec hf).1, h⟩)
      | none => exact ih used h

lemma pass2_lt (started : List LineupEntry) :
    ∀ (sp : List (Option ℕ)) (used : List ℕ), (∀ j ∈ used, j < started.length) →
      ∀ j ∈ (pass2 started sp used).2, j < started.length := by
  intro sp
  induction sp with
  | nil => intro used h; simpa [pass2] using h
  | cons o rest ih =>
    intro used h
    cases o with
    | some i => exact ih used h
    | none =>
      unfold pass2
      cases hf : findFreeIndex started used (fun _ => true) with
      | some i =>
        refine ih (i :: used) ?_
        intro j hj
        rcases List.mem_cons.mp hj with rfl | hj
        · exact (findFreeIndex_spec hf).2
        · exact h j hj
      | none => exact ih used h

lemma lineupAssign_used_perm (entries : List LineupEntry) (gameType : Option String) :
    (lineupAssign entries gameType).used.Perm
      ((lineupAssign entries gameType).slotPlayers.filterMap id) := by
  -- cancel the pass-1 assignments on both sides of the pass-2 permutation
  have key : ∀ (started : List LineupEntry) (slots : List Slot),
      (pass2 started (pass1 started slots []).1 (pass1 started slots []).2).2.Perm
        ((pass2 started (pass1 started slots []).1 (pass1 started slots []).2).1.filterMap id) := by
    intro started slots
    have h1 := pass1_perm started slots []
    have h2 := pass2_perm started (pass1 started slots []).1 (pass1 started slots []).2
    simp only [List.append_nil] at h1
    have h2' := h2.trans (List.Perm.append_left _ h1)
    have hm := Multiset.coe_eq_coe.mpr h2'
    rw [← Multiset.coe_add, ← Multiset.coe_add] at hm
    exact Multiset.coe_eq_coe.mp (add_right_cancel hm)
  exact key _ _

lemma lineupAssign_used_nodup (entries : List LineupEntry) (gameType : Option String) :
    (lineupAssign entries gameType).used.Nodup := by
  have key : ∀ (started : List LineupEntry) (slots : List Slot),
      (pass2 started (pass1 started slots []).1 (pass1 started slots []).2).2.Nodup :=
    fun started slots =>
      pass2_nodup started _ _ (pass1_nodup started slots [] List.nodup_nil)
  exact key _ _

lemma lineupAssign_used_lt (entries : List LineupEntry) (gameType : Option String) :
    ∀ j ∈ (lineupAssign entries gameType).used,
      j < (lineupAssign entries gameType).started.length := by
  have key : ∀ (started : List LineupEntry) (slots : List Slot),
      ∀ j ∈ (pass2 started (pass1 started slots []).1 (pass1 started slots []).2).2,
        j < started.length :=
    fun started slots =>
      pass2_lt started _ _ (pass1_lt started slots [] (by simp))
  exact key _ _

lemma lineupAssign_overflow_mem (entries : List LineupEntry) (gameType : Option String) (i : ℕ) :
    i ∈ (lineupAssign entries gameType).overflowIdx ↔
      (i < (lineupAssign entries gameType).started.length ∧
        i ∉ (lineupAssign entries gameType).used) := by
  show i ∈ (List.range (lineupAssign entries gameType).started.length).filter
      (fun j => !(lineupAssign entries gameType).used.contains j) ↔ _
  rw [List.mem_filter, List.mem_range]
  simp

/-- C2: the two-pass greedy assignment of `lineupCardHtml` binds no started
entry (index) to two slots, and partitions the started entries between the
slot assignment and the overflow list: an index is a started index exactly
when it is assigned or overflows, and never both. -/
theorem c2_assignment_partition (entries : List LineupEntry) (gameType : Option String) :
    ((lineupAssign entries gameType).slotPlayers.filterMap id).Nodup ∧
    ∀ i : ℕ,
      (i < (lineupAssign entries gameType).started.length ↔
        (i ∈ (lineupAssign entries gameType).slotPlayers.filterMap id ∨
         i ∈ (lineupAssign entries gameType).overflowIdx)) ∧
      ¬(i ∈ (lineupAssign entries gameType).slotPlayers.filterMap id ∧
        i ∈ (lineupAssign entries gameType).overflowIdx) := by
  have hperm := lineupAssign_used_perm entries gameType
  have hnd := lineupAssign_used_nodup entries gameType
  have hlt := lineupAssign_used_lt entries gameType
  have hassigned : ∀ i : ℕ, i ∈ (lineupAssign entries gameType).slotPlayers.filterMap id ↔
      i ∈ (lineupAssign entries gameType).used := fun i => (hperm.mem_iff).symm
  refine ⟨hperm.nodup_iff.mp hnd, fun i => ⟨⟨fun hi => ?_, fun hi => ?_⟩, fun ⟨ha, ho⟩ => ?_⟩⟩
  · by_cases hu : i ∈ (lineupAssign entries gameType).used
    · exact Or.inl ((hassigned i).mpr hu)
    · exact Or.inr ((lineupAssign_overflow_mem entries gameType i).mpr ⟨hi, hu⟩)
  · rcases hi with ha | ho
    · exact hlt i ((hassigned i).mp ha)
    · exact ((lineupAssign_overflow_mem entries gameType i).mp ho).1
  · exact ((lineupAssign_overflow_mem entries gameType i).mp ho).2 ((hassigned i).mp ha)

/-! ## Event timeline builder (`buildEventLines`) -/

/-- `normName`: lowercase, then strip everything outside `[a-z0-9]`. -/
def normName (s : String) : String :=
  ⟨(s.data.map asciiLower).filter (fun c => ('a' ≤ c && c ≤ 'z') || ('0' ≤ c && c ≤ '9'))⟩

/-- `safeName(player)`: `player_name || steam_id || "Unknown"`. -/
def safeName (r : Row) : String :=
  if r.player_name ≠ "" then r.player_name
  else if r.steam_id ≠ "" then r.steam_id
  else "Unknown"

inductive EvKind where
  | goal | yellow | red
deriving DecidableEq

/-- One derived timeline entry (`minutes` and `count` mutually exclusive). -/
structure EventLine where
  kind : EvKind
  name : String
  minutes : Option (List ℤ)
  count : Option ℚ
  sortMinute : ℤ
  rating : Option ℚ
deriving DecidableEq

/-- `[...new Set(mins)]`: de-duplicate keeping first occurrences. -/
def dedupKeepFirst : List ℤ → List ℤ
  | [] => []
  | a :: as => a :: dedupKeepFirst (as.filter (fun b => b ≠ a))
termination_by l => l.length
decreasing_by
  simp only [List.length_cons]
  exact Nat.lt_succ_of_le (List.length_filter_le _ _)

def insertAsc (a : ℤ) : List ℤ → List ℤ
  | [] => [a]
  | b :: bs => if a < b then a :: b :: bs else b :: insertAsc a bs

/-- `.sort((a, b) => a - b)`: ascending numeric sort. -/
def sortAsc : List ℤ → List ℤ
  | [] => []
  | a :: as => insertAsc a (sortAsc as)

/-- Coerce one raw minute value: finite `Number` image → `max(1, ⌊n⌋)`. -/
def minuteOf (v : JVal) : Option ℤ := (toNumber v).map (fun q => max 1 ⌊q⌋)

/-- `parseMinutes(raw)`: arrays element-wise, `null`/`undefined` → `[]`,
scalars wrapped; coerce, drop non-numbers, de-duplicate, sort ascending. -/
def parseMinutes : MinsVal → List ℤ
  | MinsVal.mAbsent => []
  | MinsVal.mScalar JVal.vUndef => []
  | MinsVal.mScalar JVal.vNull => []
  | MinsVal.mScalar v => sortAsc (dedupKeepFirst ([v].filterMap minuteOf))
  | MinsVal.mArr l => sortAsc (dedupKeepFirst (l.filterMap minuteOf))

def evNullish : EvtsVal → Bool
  | EvtsVal.evUndef => true
  | EvtsVal.evNull => true
  | _ => false

/-- `getEventMap(player)`: `(event_timestamps ?? eventTimestamps) || {}`,
decoding strings and degrading every non-object to the empty map. -/
def getEventMap (r : Row) : List (String × MinsVal) :=
  match (if evNullish r.event_timestamps then r.eventTimestamps else r.event_timestamps) with
  | EvtsVal.evMap m => m
  | _ => []

/-- JS object property lookup on a decoded JSON object (duplicate keys:
the last binding wins, as with `JSON.parse` and repeated assignment). -/
def objGet (m : List (String × MinsVal)) (k : String) : MinsVal :=
  match (m.filter (fun p => p.1 == k)).getLast? with
  | some p => p.2
  | none => MinsVal.mAbsent

def getMinutesAux (m normalized : List (String × MinsVal)) : List String → List ℤ
  | [] => []
  | k :: ks =>
    let mins := parseMinutes (objGet m k)
    if mins.isEmpty then
      let nmins := parseMinutes (objGet normalized (normName k))
      if nmins.isEmpty then getMinutesAux m normalized ks else nmins
    else mins

/-- `getMinutes(eventMap, keys)`: direct key first, then the
normalized-key map (keys lowercased and stripped to `[a-z0-9]`). -/
def getMinutes (m : List (String × MinsVal)) (keys : List String) : List ℤ :=
  getMinutesAux m (m.map (fun p => (normName p.1, p.2))) keys

/-- `Number(x || 0)` for a count field chain already folded by `||`. -/
def countOf (v : JVal) : ℚ := (toNumber (jsOr v (JVal.vNum 0))).getD 0

/-- The up-to-three lines one player contributes, in source order. -/
def playerLines (player : Row) : List EventLine :=
  let name := safeName player
  let eventMap := getEventMap player
  let rating := playerRating10 player
  let goalMinutes := getMinutes eventMap ["goal", "goals"]
  let goalLines :=
    if goalMinutes.isEmpty then
      let count := countOf (player.num NumField.goals)
      if count > 0 then [⟨EvKind.goal, name, none, some count, 999, some rating⟩] else []
    else [⟨EvKind.goal, name, some goalMinutes, none, goalMinutes.headD 999, some rating⟩]
  let yellowMinutes := getMinutes eventMap ["yellow", "yellow_card", "yellow_cards"]
  let yellowLines :=
    if yellowMinutes.isEmpty then
      let count := countOf (jsOr (player.num NumField.yellow_cards) (player.num NumField.yellowCards))
      if count > 0 then [⟨EvKind.yellow, name, none, some count, 999, some rating⟩] else []
    else [⟨EvKind.yellow, name, some yellowMinutes, none, yellowMinutes.headD 999, some rating⟩]
  let redCount := countOf (jsOr (player.num NumField.red_cards) (player.num NumField.redCards))
  let redMinutes := getMinutes eventMap
    ["red", "red_card", "red_cards", "redcard", "redcards", "straight_red"]
  let redLines :=
    if redMinutes.isEmpty then
      if redCount > 0 then [⟨EvKind.red, name, none, some redCount, 999, some rating⟩] else []
    else [⟨EvKind.red, name, some redMinutes, none, redMinutes.headD 999, some rating⟩]
  goalLines ++ yellowLines ++ redLines

/-- Code-unit lexicographic order on strings.  The source compares names
with `String.prototype.localeCompare`, whose collation is host- and
locale-defined; this fixed order stands in for it where the exact
collation is not observable. -/
def charListLt : List Char → List Char → Bool
  | [], [] => false
  | [], _ :: _ => true
  | _ :: _, [] => false
  | a :: as, b :: bs => if a = b then charListLt as bs else decide (a < b)

def nameLt (x y : String) : Bool := charListLt x.data y.data

/-- `(a.sortMinute || 999) - (b.sortMinute || 999) || localeCompare` as a
strict before-relation for an ascending sort. -/
def lineLt (a b : EventLine) : Bool :=
  let sa := if a.sortMinute = 0 then 999 else a.sortMinute
  let sb := if b.sortMinute = 0 then 999 else b.sortMinute
  sa < sb || (sa = sb && nameLt a.name b.name)

def insertLine (a : EventLine) : List EventLine → List EventLine
  | [] => [a]
  | b :: bs => if lineLt a b then a :: b :: bs else b :: insertLine a bs

def sortLines : List EventLine → List EventLine
  | [] => []
  | a :: as => insertLine a (sortLines as)

/-- `buildEventLines(sideStats)`: derive, sort, cap at 12. -/
def buildEventLines (sideStats : List Row) : List EventLine :=
  (sortLines (sideStats.flatMap playerLines)).take 12

/-- The name-keyed map built by `attachEventRatings` (`Map.set`: last
binding per key wins). -/
def byNameMapEv (rows : List Row) : String → Option Row :=
  rows.foldl (fun m row => fun k => if k = normName (safeName row) then some row else m k)
    (fun _ => none)

def setLineRating (it : EventLine) (v : Option ℚ) : EventLine := { it with rating := v }

/-- `attachEventRatings(items, sideStats)`. -/
def attachEventRatings (items : List EventLine) (rows : List Row) : List EventLine :=
  items.map (fun it =>
    { it with rating := (byNameMapEv rows (normName it.name)).map playerRating10 })

/-- One side's timeline as assembled in `init`: a non-empty precomputed
list from the provider takes precedence over re-derivation. -/
def sideEvents (api : List EventLine) (stats : List Row) : List EventLine :=
  attachEventRatings (if api.length ≠ 0 then api else buildEventLines stats) stats

lemma length_insertLine (a : EventLine) (l : List EventLine) :
    (insertLine a l).length = l.length + 1 := by
  induction l with
  | nil => rfl
  | cons b bs ih =>
    unfold insertLine
    by_cases h : lineLt a b
    · simp [h]
    · simp [h, ih]

lemma length_sortLines (l : List EventLine) : (sortLines l).length = l.length := by
  induction l with
  | nil => rfl
  | cons a as ih => simp [sortLines, length_insertLine, ih]

lemma length_buildEventLines (stats : List Row) : (buildEventLines stats).length ≤ 12 := by
  unfold buildEventLines
  rw [List.length_take]
  exact min_le_left _ _

/-- A neutral precomputed event line. -/
def apiLine : EventLine := ⟨EvKind.goal, "api", none, some 1, 999, none⟩

/-- C3 counterexample: a provider-supplied event list of 13 entries reaches
the match view at its full length — the 12-entry cap is applied only on the
derived path, not to precomputed lists. -/
theorem c3_counterexample_precomputed_uncapped :
    12 < (sideEvents (List.replicate 13 apiLine) ([] : List Row)).length := by
  have h : (sideEvents (List.replicate 13 apiLine) ([] : List Row)).length = 13 := by
    unfold sideEvents attachEventRatings
    simp
  rw [h]
  norm_num

/-- C3 amended: timelines derived by `buildEventLines` never exceed 12
entries; a non-empty precomputed list is used at its own length (so the
12 bound holds for it only if the provider already respects it). -/
theorem c3_timeline_cap_amended (stats : List Row) (api : List EventLine) :
    (buildEventLines stats).length ≤ 12 ∧
    (api = [] → (sideEvents api stats).length ≤ 12) ∧
    (api ≠ [] → (sideEvents api stats).length = api.length) := by
  refine ⟨length_buildEventLines stats, fun h => ?_, fun h => ?_⟩
  · subst h
    unfold sideEvents attachEventRatings
    simpa using length_buildEventLines stats
  · have hl : api.length ≠ 0 := fun h0 => h (List.length_eq_zero.mp h0)
    unfold sideEvents attachEventRatings
    simp [hl]

/-- C3 witness: the empty provider list falls back to derivation (bounded
by 12); a singleton provider list is used at length 1. -/
theorem c3_timeline_cap_amended_witness :
    (sideEvents ([] : List EventLine) ([] : List Row)).length ≤ 12 ∧
    (sideEvents [apiLine] ([] : List Row)).length = 1 :=
  ⟨(c3_timeline_cap_amended [] []).2.1 rfl,
   (c3_timeline_cap_amended [] [apiLine]).2.2 (by simp)⟩

/-! ## Stats lookup (`buildStatsLookup` / `resolvePlayerStats`) -/

structure Lookup where
  bySteam : String → Option Row
  byName : String → Option Row

/-- `buildStatsLookup(sideStats)`: two `Map`s, `set` overwrites, empty keys
skipped. -/
def buildStatsLookup (rows : List Row) : Lookup :=
  rows.foldl (fun lk row =>
    let steamKey := strTrim row.steam_id
    let bySteam := if steamKey ≠ "" then
        (fun k => if k = steamKey then some row else lk.bySteam k) else lk.bySteam
    let nameKey := normName row.player_name
    let byName := if nameKey ≠ "" then
        (fun k => if k = nameKey then some row else lk.byName k) else lk.byName
    ⟨bySteam, byName⟩) ⟨fun _ => none, fun _ => none⟩

/-- `resolvePlayerStats(entry, lookup)`. -/
def resolvePlayerStats (entry : Option LineupEntry) (lookup : Option Lookup) : Option Row :=
  match entry, lookup with
  | some e, some lk =>
    let steam := strTrim e.steamId
    if steam ≠ "" ∧ (lk.bySteam steam).isSome then lk.bySteam steam
    else
      let nameKey := normName e.name
      if nameKey ≠ "" ∧ (lk.byName nameKey).isSome then lk.byName nameKey
      else none
  | _, _ => none

/-! ## MVP resolver (`computeMvp` / `resolveMvp`) -/

/-- Overwrite one numeric field (`merged._rating = ...` and the spreads of
`computeMvp`). -/
def setNum (r : Row) (f : NumField) (v : JVal) : Row :=
  { r with num := fun g => if g = f then v else r.num g }

/-- The secondary tie-break score of `computeMvp`. -/
def tieBreakOf (r : Row) : ℚ :=
  pickNum r [NumField.goals] * 4 + pickNum r [NumField.assists] * 3 +
    pickNum r [NumField.interceptions] + pickNum r [NumField.keeper_saves, NumField.keeperSaves]

/-- The numeric `_rating` / `_tieBreak` fields written by `computeMvp`,
read back for its sort comparator (both are always finite numbers there). -/
def scoredRating (r : Row) : ℚ := (toNumber (r.num NumField._rating)).getD 0

def scoredTieBreak (r : Row) : ℚ := (toNumber (r.num NumField._tieBreak)).getD 0

/-- `(b._rating - a._rating) || (b._tieBreak - a._tieBreak) < 0`: `a`
strictly precedes `b` (descending rating, then descending tie-break). -/
def mvpBefore (a b : Row) : Bool :=
  scoredRating b < scoredRating a ||
    (scoredRating b = scoredRating a && scoredTieBreak b < scoredTieBreak a)

def insertMvp (a : Row) : List Row → List Row
  | [] => [a]
  | b :: bs => if mvpBefore a b then a :: b :: bs else b :: insertMvp a bs

def sortMvp : List Row → List Row
  | [] => []
  | a :: as => insertMvp a (sortMvp as)

/-- `computeMvp(allStats)`: `null` on the empty array, else the best scored
row. -/
def computeMvp (allStats : List Row) : Option Row :=
  if allStats.length = 0 then none
  else
    (sortMvp (allStats.map (fun p =>
      setNum (setNum p NumField._rating (JVal.vNum (playerRating10 p)))
        NumField._tieBreak (JVal.vNum (tieBreakOf p))))).head?

/-- The `allStats.find(...)` step of `resolveMvp`: first row matching the
supplied record by normalized name (and by uppercased position when the
supplied record carries one). -/
def mvpLinked (allStats : List Row) (api : Row) : Option Row :=
  let targetName := normName (if api.player_name ≠ "" then api.player_name else api.name)
  let targetPos := strUpper api.position
  if targetName ≠ "" then
    allStats.find? (fun p =>
      let playerName := normName (if p.player_name ≠ "" then p.player_name else p.name)
      playerName ≠ "" && playerName == targetName &&
        (targetPos == "" || strUpper p.position == targetPos))
  else none

/-- `Object.assign({...apiMvp}, linked)`: every field present on the linked
row (modelled: non-`undefined` / non-empty-string) overwrites the supplied
record's field; supplied fields survive only where the row lacks the field. -/
def mergeRow (api linked : Row) : Row :=
  { num := fun f => if linked.num f = JVal.vUndef then api.num f else linked.num f,
    player_name := if linked.player_name = "" then api.player_name else linked.player_name,
    name := if linked.name = "" then api.name else linked.name,
    position := if linked.position = "" then api.position else linked.position,
    steam_id := if linked.steam_id = "" then api.steam_id else linked.steam_id,
    event_timestamps := if linked.event_timestamps = EvtsVal.evUndef then
        api.event_timestamps else linked.event_timestamps,
    eventTimestamps := if linked.eventTimestamps = EvtsVal.evUndef then
        api.eventTimestamps else linked.eventTimestamps }

/-- `resolveMvp(allStats, apiMvp)`; `none` for a nullish/non-object
`apiMvp`. -/
def resolveMvp (allStats : List Row) (apiMvp : Option Row) : Option Row :=
  match apiMvp with
  | some api =>
    let merged := match mvpLinked allStats api with
      | some linked => mergeRow api linked
      | none => api
    some (setNum merged NumField._rating (JVal.vNum (playerRating10 merged)))
  | none => computeMvp allStats

lemma buildStatsLookup_bySteam (k : String) (hk : k ≠ "") : ∀ rows : List Row,
    (buildStatsLookup rows).bySteam k =
      (rows.filter (fun r => strTrim r.steam_id == k)).getLast? := by
  intro rows
  induction rows using List.reverseRecOn with
  | nil => simp [buildStatsLookup]
  | append_singleton rs r ih =>
    unfold buildStatsLookup at ih ⊢
    rw [List.foldl_append, List.foldl_cons, List.foldl_nil, List.filter_append]
    dsimp only
    by_cases hr : strTrim r.steam_id = k
    · have hg : strTrim r.steam_id ≠ "" := by rw [hr]; exact hk
      have hone : List.filter (fun r => strTrim r.steam_id == k) [r] = [r] := by simp [hr]
      rw [hone, List.getLast?_concat, if_pos hg]
      rw [if_pos hr.symm]
    · have hr' : ¬(k = strTrim r.steam_id) := fun h => hr h.symm
      have hone : List.filter (fun r => strTrim r.steam_id == k) [r] = [] := by simp [hr]
      rw [hone, List.append_nil]
      by_cases hg : strTrim r.steam_id = ""
      · rw [if_neg (fun hcon => hcon hg)]
        exact ih
      · rw [if_pos hg]
        rw [if_neg hr']
        exact ih

lemma buildStatsLookup_byName (k : String) (hk : k ≠ "") : ∀ rows : List Row,
    (buildStatsLookup rows).byName k =
      (rows.filter (fun r => normName r.player_name == k)).getLast? := by
  intro rows
  induction rows using List.reverseRecOn with
  | nil => simp [buildStatsLookup]
  | append_singleton rs r ih =>
    unfold buildStatsLookup at ih ⊢
    rw [List.foldl_append, List.foldl_cons, List.foldl_nil, List.filter_append]
    dsimp only
    by_cases hr : normName r.player_name = k
    · have hg : normName r.player_name ≠ "" := by rw [hr]; exact hk
      have hone : List.filter (fun r => normName r.player_name == k) [r] = [r] := by simp [hr]
      rw [hone, List.getLast?_concat, if_pos hg]
      rw [if_pos hr.symm]
    · have hr' : ¬(k = normName r.player_name) := fun h => hr h.symm
      have hone : List.filter (fun r => normName r.player_name == k) [r] = [] := by simp [hr]
      rw [hone, List.append_nil]
      by_cases hg : normName r.player_name = ""
      · rw [if_neg (fun hcon => hcon hg)]
        exact ih
      · rw [if_pos hg]
        rw [if_neg hr']
        exact ih

lemma byNameMapEv_char (k : String) : ∀ rows : List Row,
    byNameMapEv rows k = (rows.filter (fun r => normName (safeName r) == k)).getLast? := by
  intro rows
  induction rows using List.reverseRecOn with
  | nil => simp [byNameMapEv]
  | append_singleton rs r ih =>
    unfold byNameMapEv at ih ⊢
    rw [List.foldl_append, List.foldl_cons, List.foldl_nil, List.filter_append]
    by_cases hr : normName (safeName r) = k
    · have hone : List.filter (fun r => normName (safeName r) == k) [r] = [r] := by simp [hr]
      rw [hone, List.getLast?_concat, if_pos hr.symm]
    · have hr' : ¬(k = normName (safeName r)) := fun h => hr h.symm
      have hone : List.filter (fun r => normName (safeName r) == k) [r] = [] := by simp [hr]
      rw [hone, List.append_nil, if_neg hr']
      exact ih

/-- C10: the lookup tables keep the last row per trimmed steam id and per
normalized name; `resolvePlayerStats` resolves by steam id first (the name
match is never consulted when a steam match exists) and otherwise by
normalized name, always to the row appearing last in the input; and
`attachEventRatings` links each item to the last row whose normalized
`safeName` equals the item's normalized name. -/
theorem c10_lookup_last_wins :
    (∀ (rows : List Row) (e : LineupEntry),
      strTrim e.steamId ≠ "" →
      rows.filter (fun r => strTrim r.steam_id == strTrim e.steamId) ≠ [] →
      resolvePlayerStats (some e) (some (buildStatsLookup rows)) =
        (rows.filter (fun r => strTrim r.steam_id == strTrim e.steamId)).getLast?) ∧
    (∀ (rows : List Row) (e : LineupEntry),
      (strTrim e.steamId = "" ∨
        rows.filter (fun r => strTrim r.steam_id == strTrim e.steamId) = []) →
      normName e.name ≠ "" →
      resolvePlayerStats (some e) (some (buildStatsLookup rows)) =
        (rows.filter (fun r => normName r.player_name == normName e.name)).getLast?) ∧
    (∀ (rows : List Row) (items : List EventLine),
      attachEventRatings items rows = items.map (fun it => setLineRating it (Option.map
        playerRating10
        ((rows.filter (fun r => normName (safeName r) == normName it.name)).getLast?)))) := by
  refine ⟨?_, ?_, ?_⟩
  · intro rows e hs hne
    have hchar := buildStatsLookup_bySteam (strTrim e.steamId) hs rows
    have hsome : ((buildStatsLookup rows).bySteam (strTrim e.steamId)).isSome := by
      rw [hchar]
      exact List.getLast?_isSome.mpr hne
    unfold resolvePlayerStats
    dsimp only
    rw [if_pos ⟨hs, hsome⟩]
    exact hchar
  · intro rows e hdisj hn
    have hnosteam : ¬(strTrim e.steamId ≠ "" ∧
        ((buildStatsLookup rows).bySteam (strTrim e.steamId)).isSome = true) := by
      rcases hdisj with h0 | h0
      · exact fun hc => hc.1 h0
      · intro hc
        have hchar := buildStatsLookup_bySteam (strTrim e.steamId) hc.1 rows
        rw [h0] at hchar
        rw [hchar] at hc
        exact Bool.noConfusion hc.2
    have hchar := buildStatsLookup_byName (normName e.name) hn rows
    unfold resolvePlayerStats
    dsimp only
    rw [if_neg hnosteam]
    by_cases hne : rows.filter (fun r => normName r.player_name == normName e.name) = []
    · rw [if_neg]
      · rw [hne]
        rfl
      · intro hc
        rw [hchar, hne] at hc
        exact Bool.noConfusion hc.2
    · rw [if_pos ⟨hn, by rw [hchar]; exact List.getLast?_isSome.mpr hne⟩]
      exact hchar
  · intro rows items
    unfold attachEventRatings
    have hfun : (fun it : EventLine =>
        { it with rating := (byNameMapEv rows (normName it.name)).map playerRating10 }) =
        (fun it : EventLine => setLineRating it (Option.map playerRating10
          ((rows.filter (fun r => normName (safeName r) == normName it.name)).getLast?))) := by
      funext it
      rw [byNameMapEv_char]
      rfl
    rw [hfun]

/-- Two rows sharing a steam id and a display name; the later one wins. -/
def wRowEarly : Row :=
  { mkRow (fun _ => JVal.vUndef) with player_name := "bob", steam_id := "7" }

def wRowLate : Row :=
  { mkRow (fun f => if f = NumField.goals then JVal.vNum 1 else JVal.vUndef) with
      player_name := "bob", steam_id := "7" }

def wEntrySteam : LineupEntry := ⟨"CF", "bob", "7", true⟩

def wEntryName : LineupEntry := ⟨"CF", "bob", "", true⟩

def wItem : EventLine := ⟨EvKind.goal, "Bob", none, some 1, 999, none⟩

/-- C10 witness: duplicate steam id and name resolve to the later row, for
the steam path, the name path, and the event-rating link. -/
theorem c10_lookup_last_wins_witness :
    resolvePlayerStats (some wEntrySteam) (some (buildStatsLookup [wRowEarly, wRowLate])) =
      some wRowLate ∧
    resolvePlayerStats (some wEntryName) (some (buildStatsLookup [wRowEarly, wRowLate])) =
      some wRowLate ∧
    attachEventRatings [wItem] [wRowEarly, wRowLate] =
      [setLineRating wItem (some (playerRating10 wRowLate))] :=
  ⟨(c10_lookup_last_wins.1 [wRowEarly, wRowLate] wEntrySteam (by decide)
      (fun h => List.noConfusion h)).trans rfl,
   (c10_lookup_last_wins.2.1 [wRowEarly, wRowLate] wEntryName (Or.inl rfl)
      (by decide)).trans rfl,
   (c10_lookup_last_wins.2.2 [wRowEarly, wRowLate] [wItem]).trans rfl⟩

lemma insertMvp_ne_nil (a : Row) (l : List Row) : insertMvp a l ≠ [] := by
  cases l with
  | nil => simp [insertMvp]
  | cons b bs =>
    unfold insertMvp
    by_cases h : mvpBefore a b <;> simp [h]

/-- An external MVP record referencing a player with no statistic rows. -/
def c8Api : Row := { mkRow (fun _ => JVal.vUndef) with player_name := "zed" }

/-- C8 counterexample: with an empty combined statistic array but an
externally supplied MVP record, `resolveMvp` returns that record (with a
recomputed rating), not the `no MVP` terminal value. -/
theorem c8_counterexample_api_mvp_on_empty :
    resolveMvp [] (some c8Api) ≠ none := fun h => Option.noConfusion h

/-- C8 amended: `computeMvp` yields the `no MVP` terminal value exactly on
the empty combined array, and MVP resolution without an external record
yields `no MVP` on the empty array; with an external record supplied, that
record itself is returned.  (Resolution is a total function: no exception.) -/
theorem c8_empty_stats_no_mvp_amended :
    (∀ stats : List Row, computeMvp stats = none ↔ stats = []) ∧
    resolveMvp [] none = none := by
  refine ⟨fun stats => ⟨fun h => ?_, fun h => by rw [h]; rfl⟩, rfl⟩
  cases stats with
  | nil => rfl
  | cons a as =>
    exfalso
    unfold computeMvp at h
    rw [if_neg (by simp)] at h
    rw [List.map_cons] at h
    have hne := insertMvp_ne_nil
      (setNum (setNum a NumField._rating (JVal.vNum (playerRating10 a)))
        NumField._tieBreak (JVal.vNum (tieBreakOf a)))
      (sortMvp (as.map (fun p =>
        setNum (setNum p NumField._rating (JVal.vNum (playerRating10 p)))
          NumField._tieBreak (JVal.vNum (tieBreakOf p)))))
    exact hne (List.head?_eq_none_iff.mp h)

/-- C8 witness: the empty array maps to `none` and a singleton does not. -/
theorem c8_empty_stats_no_mvp_amended_witness :
    computeMvp [] = none ∧ ¬(computeMvp [c8Api] = none) :=
  ⟨(c8_empty_stats_no_mvp_amended.1 []).mpr rfl,
   fun h => List.noConfusion ((c8_empty_stats_no_mvp_amended.1 [c8Api]).mp h)⟩

/-- The externally supplied MVP record of the C5 scenario: five goals. -/
def c5ApiMvp : Row :=
  { mkRow (fun f => if f = NumField.goals then JVal.vNum 5 else JVal.vUndef) with
      player_name := "Bob" }

/-- The local statistic row matching it by normalized name: two goals. -/
def c5RowBob : Row :=
  { mkRow (fun f => if f = NumField.goals then JVal.vNum 2 else JVal.vUndef) with
      player_name := "Bob", steam_id := "9" }

/-- C5 counterexample: the supplied record's `goals` field (5) is present,
yet the merged MVP carries the matched row's value (2): `Object.assign`
gives the row's fields precedence, so supplied fields *are* discarded
whenever the row also carries the field. -/
theorem c5_counterexample_supplied_field_overwritten :
    (resolveMvp [c5RowBob] (some c5ApiMvp)).map (fun m => m.num NumField.goals) =
      some (JVal.vNum 2) ∧
    c5ApiMvp.num NumField.goals = JVal.vNum 5 ∧
    (JVal.vNum 2 : JVal) ≠ JVal.vNum 5 := by
  exact ⟨by decide, rfl, by decide⟩

/-- C5 amended: when a row matches the supplied record, the row's fields
take precedence in the merge and supplied fields survive only where the row
lacks the field, after which the rating is recomputed on the merge; with no
match the supplied record is returned as-is with its rating computed from
its own fields. -/
theorem c5_merge_row_precedence_amended (stats : List Row) (api : Row) :
    (∀ linked, mvpLinked stats api = some linked →
      ∃ m, resolveMvp stats (some api) = some m ∧
        (∀ f : NumField, f ≠ NumField._rating →
          m.num f = (if linked.num f = JVal.vUndef then api.num f else linked.num f)) ∧
        m.num NumField._rating = JVal.vNum (playerRating10 (mergeRow api linked)) ∧
        m.player_name = (if linked.player_name = "" then api.player_name else linked.player_name) ∧
        m.position = (if linked.position = "" then api.position else linked.position)) ∧
    (mvpLinked stats api = none →
      ∃ m, resolveMvp stats (some api) = some m ∧
        (∀ f : NumField, f ≠ NumField._rating → m.num f = api.num f) ∧
        m.num NumField._rating = JVal.vNum (playerRating10 api) ∧
        m.player_name = api.player_name ∧ m.position = api.position) := by
  constructor
  · intro linked hl
    refine ⟨setNum (mergeRow api linked) NumField._rating
      (JVal.vNum (playerRating10 (mergeRow api linked))), ?_, ?_, ?_, ?_, ?_⟩
    · simp only [resolveMvp, hl]
    · intro f hf
      simp [setNum, mergeRow, hf]
    · simp [setNum]
    · simp [setNum, mergeRow]
    · simp [setNum, mergeRow]
  · intro hl
    refine ⟨setNum api NumField._rating (JVal.vNum (playerRating10 api)), ?_, ?_, ?_, rfl, rfl⟩
    · simp only [resolveMvp, hl]
    · intro f hf
      simp [setNum, hf]
    · simp [setNum]

/-- C5 witness: the matched branch on the concrete Bob scenario and the
unmatched branch on the empty statistic set. -/
theorem c5_merge_row_precedence_amended_witness :
    (∃ m, resolveMvp [c5RowBob] (some c5ApiMvp) = some m ∧
      (∀ f : NumField, f ≠ NumField._rating →
        m.num f = (if c5RowBob.num f = JVal.vUndef then c5ApiMvp.num f else c5RowBob.num f)) ∧
      m.num NumField._rating = JVal.vNum (playerRating10 (mergeRow c5ApiMvp c5RowBob)) ∧
      m.player_name =
        (if c5RowBob.player_name = "" then c5ApiMvp.player_name else c5RowBob.player_name) ∧
      m.position = (if c5RowBob.position = "" then c5ApiMvp.position else c5RowBob.position)) ∧
    (∃ m, resolveMvp [] (some c5ApiMvp) = some m ∧
      (∀ f : NumField, f ≠ NumField._rating → m.num f = c5ApiMvp.num f) ∧
      m.num NumField._rating = JVal.vNum (playerRating10 c5ApiMvp) ∧
      m.player_name = c5ApiMvp.player_name ∧ m.position = c5ApiMvp.position) :=
  ⟨(c5_merge_row_precedence_amended [c5RowBob] c5ApiMvp).1 c5RowBob rfl,
   (c5_merge_row_precedence_amended [] c5ApiMvp).2 rfl⟩

end Hub
